import Mathlib

/-!
Shallow embedding of the mala-inventory-project repository.

Client side (src/src/App.tsx): the inventory calculator
(calculateSafetyStock, calculateReorderPoint, getStatus) and the
optimistic-update handler (handleUpdate).  JavaScript numbers are
modelled as rationals; toFixed(2) followed by parseFloat is modelled by
round2, rounding to two decimal places with ties toward positive
infinity, which is the rounding Math round and toFixed perform.

Server side (the express backend): one SQLite table items with columns
id INTEGER PRIMARY KEY AUTOINCREMENT, name TEXT NOT NULL, and nullable
category, unit, avgDailyUsage, maxDailyUsage, leadTime, currentStock.
A database state is the list of rows plus the AUTOINCREMENT sequence
value, which SQLite persists in sqlite_sequence so that ids are never
reused.  Request bodies are partial: a field absent from the JSON body
destructures to undefined and the sqlite3 driver binds it as SQL NULL,
exactly as an explicit JSON null does; both are therefore one
constructor none.
-/

namespace MalaInventory

/-- Rounding to two decimal places: the model of parseFloat of x.toFixed(2). -/
def round2 (x : ℚ) : ℚ := (round (x * 100) : ℤ) / 100

/-- The client item record (interface InventoryItem in App.tsx). -/
structure InventoryItem where
  id : ℕ
  name : String
  category : String
  unit : String
  avgDailyUsage : ℚ
  maxDailyUsage : ℚ
  leadTime : ℚ
  currentStock : ℚ
deriving DecidableEq

/-- calculateSafetyStock from App.tsx: the maximum of 0 and the rounded
difference of maxDailyUsage times leadTime and avgDailyUsage times
leadTime. -/
def calculateSafetyStock (item : InventoryItem) : ℚ :=
  max 0 (round2 (item.maxDailyUsage * item.leadTime - item.avgDailyUsage * item.leadTime))

/-- calculateReorderPoint from App.tsx: the rounded sum of demand during
lead time and the safety stock. -/
def calculateReorderPoint (item : InventoryItem) : ℚ :=
  round2 (item.avgDailyUsage * item.leadTime + calculateSafetyStock item)

/-- getStatus from App.tsx, restricted to the status string it returns. -/
def getStatus (item : InventoryItem) : String :=
  if item.currentStock ≤ calculateReorderPoint item then "Reorder Now" else "OK"

/-- A single-field edit, as handleUpdate receives it: a key of
InventoryItem together with the new value. -/
inductive FieldUpd where
  | setName (s : String)
  | setCategory (s : String)
  | setUnit (s : String)
  | setAvgDailyUsage (q : ℚ)
  | setMaxDailyUsage (q : ℚ)
  | setLeadTime (q : ℚ)
  | setCurrentStock (q : ℚ)
deriving DecidableEq

/-- The spread assignment in handleUpdate: the item with one field
replaced by the new value. -/
def applyFieldUpd (u : FieldUpd) (it : InventoryItem) : InventoryItem :=
  match u with
  | .setName s => { it with name := s }
  | .setCategory s => { it with category := s }
  | .setUnit s => { it with unit := s }
  | .setAvgDailyUsage q => { it with avgDailyUsage := q }
  | .setMaxDailyUsage q => { it with maxDailyUsage := q }
  | .setLeadTime q => { it with leadTime := q }
  | .setCurrentStock q => { it with currentStock := q }

/-- Outcome of the fetch call inside handleUpdate.  A fetch promise
resolves for every HTTP response the server sends, whatever its status
code, and rejects only on a network failure; resp carries the HTTP
status code of a resolved response. -/
inductive FetchOutcome where
  | resp (status : ℕ)
  | networkError
deriving DecidableEq

/-- handleUpdate from App.tsx: the item list is first replaced by the
optimistic map; the catch block restores the saved original list only
when the fetch promise rejects, that is on networkError.  The code never
inspects the response, so a resolved response keeps the optimistic list. -/
def handleUpdate (items : List InventoryItem) (idv : ℕ) (u : FieldUpd)
    (outcome : FetchOutcome) : List InventoryItem :=
  let optimistic := items.map (fun it => if it.id = idv then applyFieldUpd u it else it)
  match outcome with
  | .networkError => items
  | .resp _ => optimistic

/-- A stored row of the items table.  Column name is declared NOT NULL;
every other non-key column is nullable. -/
structure Row where
  id : ℕ
  name : String
  category : Option String
  unit : Option String
  avgDailyUsage : Option ℚ
  maxDailyUsage : Option ℚ
  leadTime : Option ℚ
  currentStock : Option ℚ
deriving DecidableEq

/-- A JSON request body after destructuring in the route handlers: each
field is either present with a value or bound as SQL NULL (none covers
both an absent field and an explicit JSON null). -/
structure ReqBody where
  name : Option String
  category : Option String
  unit : Option String
  avgDailyUsage : Option ℚ
  maxDailyUsage : Option ℚ
  leadTime : Option ℚ
  currentStock : Option ℚ
deriving DecidableEq

/-- The JSON envelope of the PUT and DELETE routes: the message string
and the changes count reported by the driver. -/
structure MutResp where
  message : String
  changes : ℕ
deriving DecidableEq

/-- Database state: the rows of the items table and the AUTOINCREMENT
sequence value recorded in sqlite_sequence (the largest id ever
assigned; never decreased, so ids are never reused). -/
structure DB where
  rows : List Row
  seq : ℕ
deriving DecidableEq

/-- The freshly created empty table. -/
def DB.init : DB := ⟨[], 0⟩

/-- GET api items: SELECT star FROM items. -/
def getItems (db : DB) : List Row := db.rows

/-- POST api items: INSERT of the seven bound parameters.  When the name
parameter is NULL the NOT NULL constraint on items.name makes the INSERT
fail and the route answers with status 400 and the driver message;
otherwise a fresh id one above the sequence value is assigned and the
route answers success with the new row. -/
def postItem (b : ReqBody) (db : DB) : Except String (DB × Row) :=
  match b.name with
  | none => .error "SQLITE_CONSTRAINT: NOT NULL constraint failed: items.name"
  | some n =>
      let newId := db.seq + 1
      let r : Row := ⟨newId, n, b.category, b.unit, b.avgDailyUsage,
        b.maxDailyUsage, b.leadTime, b.currentStock⟩
      .ok (⟨db.rows ++ [r], newId⟩, r)

/-- The SET clause of the UPDATE statement: every column is set to
COALESCE of the bound parameter and the old column value, so a NULL
parameter keeps the stored value. -/
def updateRow (b : ReqBody) (r : Row) : Row where
  id := r.id
  name := b.name.getD r.name
  category := b.category.orElse (fun _ => r.category)
  unit := b.unit.orElse (fun _ => r.unit)
  avgDailyUsage := b.avgDailyUsage.orElse (fun _ => r.avgDailyUsage)
  maxDailyUsage := b.maxDailyUsage.orElse (fun _ => r.maxDailyUsage)
  leadTime := b.leadTime.orElse (fun _ => r.leadTime)
  currentStock := b.currentStock.orElse (fun _ => r.currentStock)

/-- PUT api items id: the UPDATE statement touches exactly the rows whose
id matches, and this.changes counts them; the route always answers the
message success together with that count.  The statement cannot violate a
constraint because COALESCE never writes NULL into items.name. -/
def putItem (idv : ℕ) (b : ReqBody) (db : DB) : DB × MutResp :=
  (⟨db.rows.map (fun r => if r.id = idv then updateRow b r else r), db.seq⟩,
   ⟨"success", (db.rows.filter (fun r => r.id == idv)).length⟩)

/-- DELETE api items id: the DELETE statement removes the rows whose id
matches, this.changes counts them, and the route answers the message
deleted together with that count. -/
def deleteItem (idv : ℕ) (db : DB) : DB × MutResp :=
  (⟨db.rows.filter (fun r => r.id != idv), db.seq⟩,
   ⟨"deleted", (db.rows.filter (fun r => r.id == idv)).length⟩)

/-- One API mutation, for reasoning about sequences of operations. -/
inductive Op where
  | post (b : ReqBody)
  | put (idv : ℕ) (b : ReqBody)
  | del (idv : ℕ)
deriving DecidableEq

/-- Apply one operation; the second component is the id assigned when the
operation is a creation that succeeded (a failed INSERT leaves the
database unchanged and assigns no id). -/
def applyOp (db : DB) : Op → DB × Option ℕ
  | .post b =>
      match postItem b db with
      | .ok (dbNew, r) => (dbNew, some r.id)
      | .error _ => (db, none)
  | .put idv b => ((putItem idv b db).1, none)
  | .del idv => ((deleteItem idv db).1, none)

/-- Run a sequence of operations, collecting the assigned ids in order. -/
def runOps (db : DB) : List Op → DB × List ℕ
  | [] => (db, [])
  | op :: rest =>
      let step := applyOp db op
      let next := runOps step.1 rest
      (next.1, step.2.toList ++ next.2)

/-- Example item of the worked example in the specification: average
usage 5, maximum usage 10, lead time 2, current stock 15. -/
def itemLow : InventoryItem := ⟨1, "Beef", "Meat", "kg", 5, 10, 2, 15⟩

/-- The same item with current stock 25. -/
def itemHigh : InventoryItem := ⟨1, "Beef", "Meat", "kg", 5, 10, 2, 25⟩

/-- The worked-example item after an edit setting current stock to 5. -/
def itemLowUpd : InventoryItem := ⟨1, "Beef", "Meat", "kg", 5, 10, 2, 5⟩

/-- Concrete item with nonnegative fields and maximum at least average. -/
def itemW : InventoryItem := ⟨2, "Tofu", "Topping", "pack", 3, 7, 2, 4⟩

/-- Concrete item whose maximum daily usage is below its average. -/
def itemInconsistent : InventoryItem := ⟨3, "Napa", "Veggie", "kg", 5, 3, 2, 4⟩

/-- A request body with every field absent. -/
def emptyBody : ReqBody := ⟨none, none, none, none, none, none, none⟩

/-- A request body carrying only a name. -/
def bodyNamed : ReqBody := ⟨some "Beef", none, none, none, none, none, none⟩

/-- A request body carrying only a currentStock value. -/
def bodyStock : ReqBody := ⟨none, none, none, none, none, none, some 42⟩

/-- A concrete stored row. -/
def rowW : Row := ⟨1, "Beef", some "Meat", some "kg", some 5, some 10, some 2, some 15⟩

/-- A concrete stored row whose nullable columns are all NULL. -/
def rowBare : Row := ⟨4, "Salt", none, none, none, none, none, none⟩

/-- A one-row database whose sequence value is 1. -/
def dbW : DB := ⟨[rowW], 1⟩

/-- A concrete operation sequence: two creations with a deletion between. -/
def opsW : List Op := [.post bodyNamed, .del 1, .post bodyNamed]

/-- The row created by the second creation of opsW. -/
def rowSecond : Row := ⟨2, "Beef", none, none, none, none, none, none⟩

/-- The row a further creation after opsW assigns. -/
def rowThird : Row := ⟨3, "Beef", none, none, none, none, none, none⟩

/-- The database reached by opsW followed by one more creation. -/
def dbAfter : DB := ⟨[rowSecond, rowThird], 3⟩

lemma round2_nonneg (x : ℚ) (h : 0 ≤ x) : 0 ≤ round2 x := by
  have h1 : (0 : ℤ) ≤ round (x * 100) := by
    rw [round_eq]
    exact Int.le_floor.mpr (by push_cast; linarith)
  unfold round2
  exact div_nonneg (by exact_mod_cast h1) (by norm_num)

lemma round2_nonpos (x : ℚ) (h : x ≤ 0) : round2 x ≤ 0 := by
  have h1 : round (x * 100) ≤ (0 : ℤ) := by
    rw [round_eq]
    have h2 : ⌊x * 100 + 1 / 2⌋ < (1 : ℤ) := Int.floor_lt.mpr (by push_cast; linarith)
    omega
  have h3 : ((round (x * 100) : ℤ) : ℚ) ≤ 0 := by exact_mod_cast h1
  unfold round2
  linarith

lemma round2_add_cent (x : ℚ) (k : ℤ) :
    round2 (x + (k : ℚ) / 100) = round2 x + (k : ℚ) / 100 := by
  unfold round2
  have h : (x + (k : ℚ) / 100) * 100 = x * 100 + (k : ℚ) := by ring
  rw [h, round_add_int]
  push_cast
  ring

lemma round2_split (x y : ℚ) :
    round2 (x + max 0 (round2 y)) = round2 x + max 0 (round2 y) := by
  rcases le_total (round (y * 100)) 0 with h | h
  · have h4 : ((round (y * 100) : ℤ) : ℚ) ≤ 0 := by exact_mod_cast h
    have h3 : round2 y ≤ 0 := by unfold round2; linarith
    rw [max_eq_left h3, add_zero, add_zero]
  · have h4 : (0 : ℚ) ≤ ((round (y * 100) : ℤ) : ℚ) := by exact_mod_cast h
    have h3 : (0 : ℚ) ≤ round2 y := by unfold round2; linarith
    rw [max_eq_right h3]
    have e : round2 y = ((round (y * 100) : ℤ) : ℚ) / 100 := rfl
    rw [e, round2_add_cent]

lemma get_map_if (idv : ℕ) (b : ReqBody) (l : List Row) (n : ℕ)
    (hn : n < l.length)
    (hn2 : n < (l.map (fun r => if r.id = idv then updateRow b r else r)).length) :
    (l.map (fun r => if r.id = idv then updateRow b r else r)).get ⟨n, hn2⟩
      = if (l.get ⟨n, hn⟩).id = idv then updateRow b (l.get ⟨n, hn⟩)
        else l.get ⟨n, hn⟩ := by
  simp [List.get_eq_getElem, List.getElem_map]

lemma applyOp_seq_mono (db : DB) (op : Op) : db.seq ≤ (applyOp db op).1.seq := by
  cases op with
  | post b =>
      cases hb : b.name with
      | none => simp [applyOp, postItem, hb]
      | some n => simp [applyOp, postItem, hb]
  | put idv b => simp [applyOp, putItem]
  | del idv => simp [applyOp, deleteItem]

lemma applyOp_assigned (db : DB) (op : Op) (i : ℕ)
    (h : (applyOp db op).2 = some i) :
    i = db.seq + 1 ∧ (applyOp db op).1.seq = db.seq + 1 := by
  cases op with
  | post b =>
      cases hb : b.name with
      | none => simp [applyOp, postItem, hb] at h
      | some n =>
          simp [applyOp, postItem, hb] at h
          simp [applyOp, postItem, hb]
          omega
  | put idv b => simp [applyOp] at h
  | del idv => simp [applyOp] at h

lemma runOps_ids (ops : List Op) : ∀ db : DB,
    (∀ i ∈ (runOps db ops).2, db.seq < i ∧ i ≤ (runOps db ops).1.seq) ∧
    (runOps db ops).2.Pairwise (· < ·) ∧
    db.seq ≤ (runOps db ops).1.seq := by
  induction ops with
  | nil => intro db; simp [runOps]
  | cons op rest ih =>
      intro db
      obtain ⟨ihb, ihp, ihs⟩ := ih (applyOp db op).1
      have hmono := applyOp_seq_mono db op
      have hids : ∀ i ∈ (runOps db (op :: rest)).2,
          db.seq < i ∧ i ≤ (runOps db (op :: rest)).1.seq := by
        intro i hi
        simp only [runOps, List.mem_append] at hi
        rcases hi with hi | hi
        · have hsome : (applyOp db op).2 = some i := by
            cases hopt : (applyOp db op).2 with
            | none => rw [hopt] at hi; simp [Option.toList] at hi
            | some j => rw [hopt] at hi; simp [Option.toList] at hi; subst hi; rfl
          obtain ⟨hi1, hi2⟩ := applyOp_assigned db op i hsome
          constructor
          · omega
          · have hstep : (runOps db (op :: rest)).1.seq
                = (runOps (applyOp db op).1 rest).1.seq := rfl
            rw [hstep]
            omega
        · obtain ⟨hgt, hle⟩ := ihb i hi
          constructor
          · omega
          · exact hle
      refine ⟨hids, ?_, ?_⟩
      · show ((applyOp db op).2.toList ++ (runOps (applyOp db op).1 rest).2).Pairwise (· < ·)
        rw [List.pairwise_append]
        refine ⟨?_, ihp, ?_⟩
        · cases hopt : (applyOp db op).2 with
          | none => simp [Option.toList]
          | some j => simp [Option.toList]
        · intro a ha c hc
          have hsome : (applyOp db op).2 = some a := by
            cases hopt : (applyOp db op).2 with
            | none => rw [hopt] at ha; simp [Option.toList] at ha
            | some j => rw [hopt] at ha; simp [Option.toList] at ha; subst ha; rfl
          obtain ⟨ha1, ha2⟩ := applyOp_assigned db op a hsome
          obtain ⟨hgt, _⟩ := ihb c hc
          omega
      · show db.seq ≤ (runOps (applyOp db op).1 rest).1.seq
        omega

/-- Claim C1: for every item with non-negative avgDailyUsage,
maxDailyUsage and leadTime and maxDailyUsage at least avgDailyUsage,
calculateSafetyStock returns round2 of the product of the usage
difference and the lead time, which equals the maximum of 0 and round2
of maxDailyUsage times leadTime minus avgDailyUsage times leadTime, and
the result is non-negative. -/
theorem calculateSafetyStock_spec (item : InventoryItem)
    (hA : 0 ≤ item.avgDailyUsage) (hM : 0 ≤ item.maxDailyUsage)
    (hL : 0 ≤ item.leadTime) (hMA : item.avgDailyUsage ≤ item.maxDailyUsage) :
    calculateSafetyStock item
        = round2 ((item.maxDailyUsage - item.avgDailyUsage) * item.leadTime) ∧
    calculateSafetyStock item
        = max 0 (round2 (item.maxDailyUsage * item.leadTime
            - item.avgDailyUsage * item.leadTime)) ∧
    0 ≤ calculateSafetyStock item := by
  have hdiff : 0 ≤ item.maxDailyUsage * item.leadTime
      - item.avgDailyUsage * item.leadTime := by
    have h := mul_le_mul_of_nonneg_right hMA hL
    linarith
  have hfac : (item.maxDailyUsage - item.avgDailyUsage) * item.leadTime
      = item.maxDailyUsage * item.leadTime - item.avgDailyUsage * item.leadTime := by ring
  refine ⟨?_, rfl, le_max_left 0 _⟩
  unfold calculateSafetyStock
  rw [hfac, max_eq_right (round2_nonneg _ hdiff)]

/-- Witness for claim C1 at a concrete item. -/
theorem calculateSafetyStock_spec_witness :
    (0 ≤ itemW.avgDailyUsage ∧ 0 ≤ itemW.maxDailyUsage ∧ 0 ≤ itemW.leadTime ∧
      itemW.avgDailyUsage ≤ itemW.maxDailyUsage) ∧
    (calculateSafetyStock itemW
        = round2 ((itemW.maxDailyUsage - itemW.avgDailyUsage) * itemW.leadTime) ∧
     calculateSafetyStock itemW
        = max 0 (round2 (itemW.maxDailyUsage * itemW.leadTime
            - itemW.avgDailyUsage * itemW.leadTime)) ∧
     0 ≤ calculateSafetyStock itemW) :=
  ⟨⟨by decide, by decide, by decide, by decide⟩,
   calculateSafetyStock_spec itemW (by decide) (by decide) (by decide) (by decide)⟩

/-- Claim C2: for every item with non-negative avgDailyUsage and
leadTime, calculateReorderPoint returns round2 of demand during lead
time plus the safety stock, this equals round2 of the demand plus the
safety stock unrounded, and the result is non-negative. -/
theorem calculateReorderPoint_spec (item : InventoryItem)
    (hA : 0 ≤ item.avgDailyUsage) (hL : 0 ≤ item.leadTime) :
    calculateReorderPoint item
        = round2 (item.avgDailyUsage * item.leadTime + calculateSafetyStock item) ∧
    calculateReorderPoint item
        = round2 (item.avgDailyUsage * item.leadTime) + calculateSafetyStock item ∧
    0 ≤ calculateReorderPoint item := by
  have hssnn : 0 ≤ calculateSafetyStock item := le_max_left 0 _
  have e : calculateSafetyStock item
      = max 0 (round2 (item.maxDailyUsage * item.leadTime
          - item.avgDailyUsage * item.leadTime)) := rfl
  refine ⟨rfl, ?_, ?_⟩
  · unfold calculateReorderPoint
    rw [e]
    exact round2_split _ _
  · unfold calculateReorderPoint
    exact round2_nonneg _ (add_nonneg (mul_nonneg hA hL) hssnn)

/-- Witness for claim C2 at a concrete item. -/
theorem calculateReorderPoint_spec_witness :
    (0 ≤ itemW.avgDailyUsage ∧ 0 ≤ itemW.leadTime) ∧
    (calculateReorderPoint itemW
        = round2 (itemW.avgDailyUsage * itemW.leadTime + calculateSafetyStock itemW) ∧
     calculateReorderPoint itemW
        = round2 (itemW.avgDailyUsage * itemW.leadTime) + calculateSafetyStock itemW ∧
     0 ≤ calculateReorderPoint itemW) :=
  ⟨⟨by decide, by decide⟩, calculateReorderPoint_spec itemW (by decide) (by decide)⟩

/-- Claim C3: for every item with non-negative leadTime whose
maxDailyUsage is below its avgDailyUsage, the negative raw difference is
clamped and calculateSafetyStock returns 0. -/
theorem calculateSafetyStock_clamped (item : InventoryItem)
    (hL : 0 ≤ item.leadTime) (hMA : item.maxDailyUsage < item.avgDailyUsage) :
    calculateSafetyStock item = 0 := by
  have h1 : item.maxDailyUsage * item.leadTime - item.avgDailyUsage * item.leadTime ≤ 0 := by
    have h := mul_le_mul_of_nonneg_right (le_of_lt hMA) hL
    linarith
  unfold calculateSafetyStock
  exact max_eq_left (round2_nonpos _ h1)

/-- Witness for claim C3 at a concrete item. -/
theorem calculateSafetyStock_clamped_witness :
    (0 ≤ itemInconsistent.leadTime ∧
      itemInconsistent.maxDailyUsage < itemInconsistent.avgDailyUsage) ∧
    calculateSafetyStock itemInconsistent = 0 :=
  ⟨⟨by decide, by decide⟩,
   calculateSafetyStock_clamped itemInconsistent (by decide) (by decide)⟩

/-- Claim C4: getStatus answers Reorder Now exactly when currentStock is
at most the reorder point and OK otherwise; on the worked example with
average usage 5, maximum usage 10 and lead time 2 the safety stock is
10, the reorder point is 20, stock 15 gives Reorder Now and stock 25
gives OK. -/
theorem getStatus_spec :
    (∀ item : InventoryItem,
      (getStatus item = "Reorder Now" ↔ item.currentStock ≤ calculateReorderPoint item) ∧
      (getStatus item = "OK" ↔ ¬ item.currentStock ≤ calculateReorderPoint item)) ∧
    calculateSafetyStock itemLow = 10 ∧
    calculateReorderPoint itemLow = 20 ∧
    getStatus itemLow = "Reorder Now" ∧
    getStatus itemHigh = "OK" := by
  have h1 : calculateSafetyStock itemLow = 10 := by
    norm_num [calculateSafetyStock, itemLow, round2]
  have h2 : calculateReorderPoint itemLow = 20 := by
    unfold calculateReorderPoint
    rw [h1]
    norm_num [itemLow, round2]
  have h1b : calculateSafetyStock itemHigh = 10 := by
    norm_num [calculateSafetyStock, itemHigh, round2]
  have h2b : calculateReorderPoint itemHigh = 20 := by
    unfold calculateReorderPoint
    rw [h1b]
    norm_num [itemHigh, round2]
  refine ⟨?_, h1, h2, ?_, ?_⟩
  · intro item
    unfold getStatus
    by_cases h : item.currentStock ≤ calculateReorderPoint item
    · simp [h]
    · simp [h]
  · unfold getStatus
    rw [h2]
    norm_num [itemLow]
  · unfold getStatus
    rw [h2b]
    norm_num [itemHigh]

/-- Claim C5, counterexample: the request body with no fields has no
name, and creating with it answers the NOT NULL constraint error of the
driver, not a success response. -/
theorem postItem_missing_name_fails :
    emptyBody.name = none ∧
    postItem emptyBody DB.init
      = Except.error "SQLITE_CONSTRAINT: NOT NULL constraint failed: items.name" :=
  ⟨rfl, rfl⟩

/-- Claim C5, amended: the create operation succeeds for every request
body that carries a name, with no validation of the remaining fields;
the created row stores each missing field as NULL and gets the next
sequence id. -/
theorem postItem_no_validation (b : ReqBody) (db : DB) (n : String)
    (h : b.name = some n) :
    ∃ dbNew r, postItem b db = Except.ok (dbNew, r) ∧
      r.id = db.seq + 1 ∧ r.name = n ∧ r.category = b.category ∧ r.unit = b.unit ∧
      r.avgDailyUsage = b.avgDailyUsage ∧ r.maxDailyUsage = b.maxDailyUsage ∧
      r.leadTime = b.leadTime ∧ r.currentStock = b.currentStock := by
  unfold postItem
  rw [h]
  exact ⟨_, _, rfl, rfl, rfl, rfl, rfl, rfl, rfl, rfl, rfl⟩

/-- Witness for the amended claim C5 at a concrete body. -/
theorem postItem_no_validation_witness :
    bodyNamed.name = some "Beef" ∧
    (∃ dbNew r, postItem bodyNamed DB.init = Except.ok (dbNew, r) ∧
      r.id = DB.init.seq + 1 ∧ r.name = "Beef" ∧ r.category = bodyNamed.category ∧
      r.unit = bodyNamed.unit ∧ r.avgDailyUsage = bodyNamed.avgDailyUsage ∧
      r.maxDailyUsage = bodyNamed.maxDailyUsage ∧ r.leadTime = bodyNamed.leadTime ∧
      r.currentStock = bodyNamed.currentStock) :=
  ⟨rfl, postItem_no_validation bodyNamed DB.init "Beef" rfl⟩

/-- Claim C6: the update keeps the length of the table; a row whose id
differs from the target is unchanged at its position; the target row
becomes its COALESCE update, whose fields absent from the body keep
their prior values and whose id is unchanged. -/
theorem putItem_frame (db : DB) (idv : ℕ) (b : ReqBody) :
    (putItem idv b db).1.rows.length = db.rows.length ∧
    (∀ n (hn : n < db.rows.length) (hn2 : n < (putItem idv b db).1.rows.length),
      ((db.rows.get ⟨n, hn⟩).id ≠ idv →
        (putItem idv b db).1.rows.get ⟨n, hn2⟩ = db.rows.get ⟨n, hn⟩) ∧
      ((db.rows.get ⟨n, hn⟩).id = idv →
        (putItem idv b db).1.rows.get ⟨n, hn2⟩ = updateRow b (db.rows.get ⟨n, hn⟩))) ∧
    (∀ r : Row,
      (b.name = none → (updateRow b r).name = r.name) ∧
      (b.category = none → (updateRow b r).category = r.category) ∧
      (b.unit = none → (updateRow b r).unit = r.unit) ∧
      (b.avgDailyUsage = none → (updateRow b r).avgDailyUsage = r.avgDailyUsage) ∧
      (b.maxDailyUsage = none → (updateRow b r).maxDailyUsage = r.maxDailyUsage) ∧
      (b.leadTime = none → (updateRow b r).leadTime = r.leadTime) ∧
      (b.currentStock = none → (updateRow b r).currentStock = r.currentStock) ∧
      (updateRow b r).id = r.id) := by
  refine ⟨by simp [putItem], ?_, ?_⟩
  · intro n hn hn2
    have hget := get_map_if idv b db.rows n hn hn2
    constructor
    · intro hne
      rw [if_neg hne] at hget
      exact hget
    · intro heq
      rw [if_pos heq] at hget
      exact hget
  · intro r
    refine ⟨?_, ?_, ?_, ?_, ?_, ?_, ?_, rfl⟩ <;> intro h <;>
      simp [updateRow, h, Option.orElse]

/-- Witness for claim C6: updating only currentStock of the stored row. -/
theorem putItem_frame_witness :
    (dbW.rows.get ⟨0, by decide⟩).id = 1 ∧
    bodyStock.name = none ∧
    (putItem 1 bodyStock dbW).1.rows.get ⟨0, by decide⟩
      = updateRow bodyStock (dbW.rows.get ⟨0, by decide⟩) ∧
    (updateRow bodyStock (dbW.rows.get ⟨0, by decide⟩)).name
      = (dbW.rows.get ⟨0, by decide⟩).name :=
  ⟨by decide, rfl,
   ((putItem_frame dbW 1 bodyStock).2.1 0 (by decide) (by decide)).2 (by decide),
   ((putItem_frame dbW 1 bodyStock).2.2 (dbW.rows.get ⟨0, by decide⟩)).1 rfl⟩

/-- Claim C7: when no stored row has the target id, the update answers
success with zero changes and the delete answers deleted with zero
changes, and both leave the database unchanged. -/
theorem absent_id_mutations (db : DB) (idv : ℕ) (b : ReqBody)
    (h : ∀ r ∈ db.rows, r.id ≠ idv) :
    putItem idv b db = (db, ⟨"success", 0⟩) ∧
    deleteItem idv db = (db, ⟨"deleted", 0⟩) := by
  have hfil : db.rows.filter (fun r => r.id == idv) = [] := by
    rw [List.filter_eq_nil_iff]
    intro r hr
    simpa using h r hr
  have hmap : db.rows.map (fun r => if r.id = idv then updateRow b r else r) = db.rows := by
    conv_rhs => rw [← List.map_id db.rows]
    exact List.map_congr_left (fun r hr => by rw [if_neg (h r hr)]; rfl)
  have hkeep : db.rows.filter (fun r => r.id != idv) = db.rows := by
    rw [List.filter_eq_self]
    intro r hr
    simpa using h r hr
  constructor
  · unfold putItem
    rw [hfil, hmap]
    rfl
  · unfold deleteItem
    rw [hfil, hkeep]
    rfl

/-- Witness for claim C7 at a concrete database and absent id. -/
theorem absent_id_mutations_witness :
    (∀ r ∈ dbW.rows, r.id ≠ 2) ∧
    putItem 2 bodyStock dbW = (dbW, ⟨"success", 0⟩) ∧
    deleteItem 2 dbW = (dbW, ⟨"deleted", 0⟩) :=
  ⟨by decide, (absent_id_mutations dbW 2 bodyStock (by decide)).1,
   (absent_id_mutations dbW 2 bodyStock (by decide)).2⟩

/-- Claim C8, counterexample: an edit whose fetch resolves with an HTTP
400 server error response does not restore the prior list; the
optimistic change stays. -/
theorem handleUpdate_server_error_keeps_change :
    handleUpdate [itemLow] 1 (FieldUpd.setCurrentStock 5) (FetchOutcome.resp 400)
      ≠ [itemLow] ∧
    handleUpdate [itemLow] 1 (FieldUpd.setCurrentStock 5) (FetchOutcome.resp 400)
      = [itemLowUpd] := by
  refine ⟨?_, rfl⟩
  decide

/-- Claim C8, amended: edits apply optimistically, and the prior list is
restored exactly when the fetch rejects with a network error; every
resolved response, server errors included, keeps the optimistic list. -/
theorem handleUpdate_revert_semantics (items : List InventoryItem) (idv : ℕ)
    (u : FieldUpd) :
    handleUpdate items idv u FetchOutcome.networkError = items ∧
    ∀ s : ℕ, handleUpdate items idv u (FetchOutcome.resp s)
      = items.map (fun it => if it.id = idv then applyFieldUpd u it else it) :=
  ⟨rfl, fun _ => rfl⟩

/-- Claim C9: over any sequence of operations from the empty table, the
assigned ids are pairwise distinct (never reused, even after deletions),
and a further successful creation yields a row that the listing contains
and whose id is above every previously assigned id. -/
theorem ids_never_reused (ops : List Op) (b : ReqBody) (dbNew : DB) (r : Row)
    (h : postItem b (runOps DB.init ops).1 = Except.ok (dbNew, r)) :
    (runOps DB.init ops).2.Pairwise (· ≠ ·) ∧
    r ∈ getItems dbNew ∧
    (∀ i ∈ (runOps DB.init ops).2, i < r.id) := by
  obtain ⟨hb, hp, hs⟩ := runOps_ids ops DB.init
  have hne : (runOps DB.init ops).2.Pairwise (· ≠ ·) :=
    hp.imp (fun hlt => Nat.ne_of_lt hlt)
  cases hbn : b.name with
  | none => rw [postItem, hbn] at h; exact absurd h (by simp)
  | some n =>
      rw [postItem, hbn] at h
      simp only [Except.ok.injEq, Prod.mk.injEq] at h
      obtain ⟨hdb, hr⟩ := h
      refine ⟨hne, ?_, ?_⟩
      · rw [← hdb, ← hr]
        simp [getItems]
      · intro i hi
        obtain ⟨_, hle⟩ := hb i hi
        rw [← hr]
        exact Nat.lt_succ_of_le hle

/-- Witness for claim C9 on a concrete create, delete, create history. -/
theorem ids_never_reused_witness :
    postItem bodyNamed (runOps DB.init opsW).1 = Except.ok (dbAfter, rowThird) ∧
    ((runOps DB.init opsW).2.Pairwise (· ≠ ·) ∧
     rowThird ∈ getItems dbAfter ∧
     (∀ i ∈ (runOps DB.init opsW).2, i < rowThird.id)) :=
  ⟨rfl, ids_never_reused opsW bodyNamed dbAfter rowThird rfl⟩

/-- Claim C10: the rows after an update are the COALESCE map; a field
bound as NULL keeps the stored value, and a nullable column of the
updated row is NULL only if it already was, so the update can never
write NULL into a field. -/
theorem updateRow_null_semantics (b : ReqBody) (r : Row) :
    (∀ db idv, (putItem idv b db).1.rows
      = db.rows.map (fun rr => if rr.id = idv then updateRow b rr else rr)) ∧
    ((b.category = none → (updateRow b r).category = r.category) ∧
     (b.unit = none → (updateRow b r).unit = r.unit) ∧
     (b.avgDailyUsage = none → (updateRow b r).avgDailyUsage = r.avgDailyUsage) ∧
     (b.maxDailyUsage = none → (updateRow b r).maxDailyUsage = r.maxDailyUsage) ∧
     (b.leadTime = none → (updateRow b r).leadTime = r.leadTime) ∧
     (b.currentStock = none → (updateRow b r).currentStock = r.currentStock)) ∧
    (((updateRow b r).category = none → r.category = none) ∧
     ((updateRow b r).unit = none → r.unit = none) ∧
     ((updateRow b r).avgDailyUsage = none → r.avgDailyUsage = none) ∧
     ((updateRow b r).maxDailyUsage = none → r.maxDailyUsage = none) ∧
     ((updateRow b r).leadTime = none → r.leadTime = none) ∧
     ((updateRow b r).currentStock = none → r.currentStock = none)) := by
  refine ⟨fun db idv => rfl, ⟨?_, ?_, ?_, ?_, ?_, ?_⟩, ⟨?_, ?_, ?_, ?_, ?_, ?_⟩⟩
  · intro h; simp [updateRow, h, Option.orElse]
  · intro h; simp [updateRow, h, Option.orElse]
  · intro h; simp [updateRow, h, Option.orElse]
  · intro h; simp [updateRow, h, Option.orElse]
  · intro h; simp [updateRow, h, Option.orElse]
  · intro h; simp [updateRow, h, Option.orElse]
  · rcases hb : b.category with _ | v <;> simp [updateRow, hb, Option.orElse]
  · rcases hb : b.unit with _ | v <;> simp [updateRow, hb, Option.orElse]
  · rcases hb : b.avgDailyUsage with _ | v <;> simp [updateRow, hb, Option.orElse]
  · rcases hb : b.maxDailyUsage with _ | v <;> simp [updateRow, hb, Option.orElse]
  · rcases hb : b.leadTime with _ | v <;> simp [updateRow, hb, Option.orElse]
  · rcases hb : b.currentStock with _ | v <;> simp [updateRow, hb, Option.orElse]

/-- Witness for claim C10 at a concrete body and rows. -/
theorem updateRow_null_semantics_witness :
    emptyBody.currentStock = none ∧
    (updateRow emptyBody rowW).currentStock = rowW.currentStock ∧
    rowBare.category = none :=
  ⟨rfl,
   (updateRow_null_semantics emptyBody rowW).2.1.2.2.2.2.2 rfl,
   (updateRow_null_semantics emptyBody rowBare).2.2.1 rfl⟩

end MalaInventory
